import Mathlib

/-!
Verification of the orbital simulator (`main.py`): a shallow embedding of
its vector algebra, geometry, scene construction and the gravitational
update rule, followed by theorems settling the specification's claims.

Python floats are modelled as real numbers (`ℝ`); `x ** 0.5` on a
nonnegative float is modelled as `Real.sqrt`.  Lean's real division is
total with `x / 0 = 0`; the `ZeroDivisionError` behaviour of Python is
modelled separately by `Universe.update?`, which returns `none` exactly
when some division in `update` has a zero divisor.
-/

namespace Orbits

/-- `Vector` from `main.py`: an immutable 2-D vector of floats. -/
structure Vector where
  x : ℝ
  y : ℝ

attribute [ext] Vector

/-- `Vector.__add__`. -/
def Vector.add (v w : Vector) : Vector := ⟨v.x + w.x, v.y + w.y⟩

instance : Add Vector := ⟨Vector.add⟩

/-- `Vector.__sub__`. -/
def Vector.sub (v w : Vector) : Vector := ⟨v.x - w.x, v.y - w.y⟩

instance : Sub Vector := ⟨Vector.sub⟩

/-- `Vector.__mul__(self, c)`: returns `Vector(c * x, c * y)`. -/
def Vector.mul (v : Vector) (c : ℝ) : Vector := ⟨c * v.x, c * v.y⟩

instance : HMul Vector ℝ Vector := ⟨Vector.mul⟩

/-- `Vector.__rmul__(self, c)`: `c * v = v * c`. -/
def Vector.rmul (c : ℝ) (v : Vector) : Vector := v * c

instance : HMul ℝ Vector Vector := ⟨Vector.rmul⟩

/-- `Vector.__truediv__`: componentwise division by a scalar
(total here; the zero-divisor case is tracked by `Vector.div?`). -/
noncomputable def Vector.div (v : Vector) (d : ℝ) : Vector := ⟨v.x / d, v.y / d⟩

noncomputable instance : HDiv Vector ℝ Vector := ⟨Vector.div⟩

/-- `Vector.__abs__`: `(x*x + y*y) ** 0.5`, the Euclidean norm. -/
noncomputable def Vector.abs (v : Vector) : ℝ := Real.sqrt (v.x * v.x + v.y * v.y)

/-- `Vector.__truediv__` with Python's error behaviour: a float division
by `0.0` raises `ZeroDivisionError`, modelled as `none`. -/
noncomputable def Vector.div? (v : Vector) (d : ℝ) : Option Vector :=
  if d = 0 then none else some (v.div d)

/-- `BBox` from `main.py`: an axis-aligned bounding box. -/
structure BBox where
  min : Vector
  max : Vector

attribute [ext] BBox

/-- `BBox.__add__`: translation of a box by a vector. -/
def BBox.addVec (b : BBox) (d : Vector) : BBox := ⟨b.min + d, b.max + d⟩

instance : HAdd BBox Vector BBox := ⟨BBox.addVec⟩

/-- `BBox.__radd__`: `d + b = b + d`. -/
def BBox.raddVec (d : Vector) (b : BBox) : BBox := b + d

instance : HAdd Vector BBox BBox := ⟨BBox.raddVec⟩

/-- `Circle` from `main.py`: center `o`, radius `r`. -/
structure Circle where
  o : Vector
  r : ℝ

attribute [ext] Circle

/-- `Circle.bbox`: `BBox(Vector(o.x - r, o.y - r), Vector(o.x + r, o.y + r))`. -/
def Circle.bbox (c : Circle) : BBox :=
  ⟨⟨c.o.x - c.r, c.o.y - c.r⟩, ⟨c.o.x + c.r, c.o.y + c.r⟩⟩

/-- `Circle.__add__`: translation, `Circle(o + d, r)`. -/
def Circle.addVec (c : Circle) (d : Vector) : Circle := ⟨c.o + d, c.r⟩

instance : HAdd Circle Vector Circle := ⟨Circle.addVec⟩

/-- `Circle.__radd__`: `d + c = c + d`. -/
def Circle.raddVec (d : Vector) (c : Circle) : Circle := c + d

instance : HAdd Vector Circle Circle := ⟨Circle.raddVec⟩

/-- `Curve` from `main.py`: a polyline given by its points. -/
structure Curve where
  points : List Vector

attribute [ext] Curve

/-- `Curve.__add__`: translation of every point. -/
def Curve.addVec (c : Curve) (d : Vector) : Curve := ⟨c.points.map (· + d)⟩

instance : HAdd Curve Vector Curve := ⟨Curve.addVec⟩

/-- `Curve.__radd__`: `d + c = c + d`. -/
def Curve.raddVec (d : Vector) (c : Curve) : Curve := c + d

instance : HAdd Vector Curve Curve := ⟨Curve.raddVec⟩

/-- `Shape`: the closed set of shape variants used by the program. -/
inductive Shape where
  | circle : Circle → Shape
  | curve : Curve → Shape

/-- `Scene` from `main.py`: an immutable ordered sequence of shapes. -/
structure Scene where
  shapes : List Shape

/-- The gravitational constant `G` of `main.py` (the float `1.0`). -/
def G : ℝ := 1

/-- `Universe` from `main.py`: all instance attributes set by
`Universe.__init__` — per body its radius, mass and position, and for the
two moving bodies also a velocity and a trail of past positions. -/
structure Universe where
  yellow_r : ℝ
  yellow_m : ℝ
  yellow_p : Vector
  blue_r : ℝ
  blue_m : ℝ
  blue_p : Vector
  blue_v : Vector
  blue_trail : List Vector
  white_r : ℝ
  white_m : ℝ
  white_p : Vector
  white_v : Vector
  white_trail : List Vector

/-- `Universe.__init__`: the hard-coded initial state.  Each satellite's
initial velocity is `Vector(0, -((G * yellow_m / abs(p - yellow_p)) ** 0.5))`. -/
noncomputable def Universe.init : Universe :=
  let yellow_m : ℝ := 5000000
  let yellow_p : Vector := ⟨0, 0⟩
  let blue_p : Vector := ⟨200, 0⟩
  let white_p : Vector := ⟨200, 30⟩
  { yellow_r := 50
    yellow_m := yellow_m
    yellow_p := yellow_p
    blue_r := 15
    blue_m := 3000
    blue_p := blue_p
    blue_v := ⟨0, -Real.sqrt (G * yellow_m / Vector.abs (blue_p - yellow_p))⟩
    blue_trail := []
    white_r := 5
    white_m := 100
    white_p := white_p
    white_v := ⟨0, -Real.sqrt (G * yellow_m / Vector.abs (white_p - yellow_p))⟩
    white_trail := [] }

/-- The trail-eviction loop of `Universe.update`:
`while len(trail) > bound: trail.pop(0)` with `bound = 2.0 / delta_t`. -/
noncomputable def trimTrail (bound : ℝ) : List Vector → List Vector
  | [] => []
  | p :: rest =>
      if bound < ((p :: rest).length : ℝ) then trimTrail bound rest else p :: rest

/-- `Universe.scene`: the scene is the three bodies' circles, anchor first,
then the blue and white satellites, from their current positions and radii
(trail curves are commented out in the source). -/
noncomputable def Universe.scene (u : Universe) : Scene :=
  ⟨[Shape.circle ⟨u.yellow_p, u.yellow_r⟩,
    Shape.circle ⟨u.blue_p, u.blue_r⟩,
    Shape.circle ⟨u.white_p, u.white_r⟩]⟩

/-- `Universe.update(delta_t)`, with real division (total, `x / 0 = 0`);
`Universe.update?` below accounts for Python's `ZeroDivisionError`.
Statement order follows the source: blue's trail, position, then velocity
from the anchor's pull at blue's new position; white's trail, position,
then velocity from the anchor's and blue's pulls at white's new position,
blue's position being the already-updated one. -/
noncomputable def Universe.update (u : Universe) (delta_t : ℝ) : Universe :=
  let blue_trail := trimTrail (2.0 / delta_t) (u.blue_trail ++ [u.blue_p])
  let blue_p := u.blue_p + u.blue_v * delta_t
  let d := blue_p - u.yellow_p
  let blue_v := u.blue_v - G * u.yellow_m * d / (Vector.abs d ^ 3) * delta_t
  let white_trail := trimTrail (2.0 / delta_t) (u.white_trail ++ [u.white_p])
  let white_p := u.white_p + u.white_v * delta_t
  let dyellow := white_p - u.yellow_p
  let dblue := white_p - blue_p
  let white_v := u.white_v
      - G * u.yellow_m * dyellow / (Vector.abs dyellow ^ 3) * delta_t
      - G * u.blue_m * dblue / (Vector.abs dblue ^ 3) * delta_t
  { u with
    blue_trail := blue_trail
    blue_p := blue_p
    blue_v := blue_v
    white_trail := white_trail
    white_p := white_p
    white_v := white_v }

/-- Scalar float division with Python's error behaviour: division by
`0.0` raises `ZeroDivisionError`, modelled as `none`. -/
noncomputable def scalarDiv? (a b : ℝ) : Option ℝ :=
  if b = 0 then none else some (a / b)

/-- `Universe.update(delta_t)` with Python's division-by-zero behaviour:
every division is checked — the `2.0 / delta_t` trail bound in each
`while` condition and each vector-by-scalar force division — and the
first zero divisor aborts the call (`none`), leaving subsequent
statements unexecuted. -/
noncomputable def Universe.update? (u : Universe) (delta_t : ℝ) : Option Universe :=
  (scalarDiv? 2.0 delta_t).bind fun bound =>
    let blue_trail := trimTrail bound (u.blue_trail ++ [u.blue_p])
    let blue_p := u.blue_p + u.blue_v * delta_t
    let d := blue_p - u.yellow_p
    (Vector.div? (G * u.yellow_m * d) (Vector.abs d ^ 3)).bind fun fb =>
      let blue_v := u.blue_v - fb * delta_t
      (scalarDiv? 2.0 delta_t).bind fun bound2 =>
        let white_trail := trimTrail bound2 (u.white_trail ++ [u.white_p])
        let white_p := u.white_p + u.white_v * delta_t
        let dyellow := white_p - u.yellow_p
        let dblue := white_p - blue_p
        (Vector.div? (G * u.yellow_m * dyellow) (Vector.abs dyellow ^ 3)).bind fun fy =>
          (Vector.div? (G * u.blue_m * dblue) (Vector.abs dblue ^ 3)).bind fun fbl =>
            some { u with
              blue_trail := blue_trail
              blue_p := blue_p
              blue_v := blue_v
              white_trail := white_trail
              white_p := white_p
              white_v := u.white_v - fy * delta_t - fbl * delta_t }

/-- `n` repeated calls `universe.update(delta_t)`. -/
noncomputable def Universe.iter (u : Universe) (delta_t : ℝ) : ℕ → Universe
  | 0 => u
  | n + 1 => (u.iter delta_t n).update delta_t

/-- The blue satellite's pre-update positions over the first `n` updates,
oldest first. -/
noncomputable def Universe.blueHist (u : Universe) (delta_t : ℝ) : ℕ → List Vector
  | 0 => []
  | n + 1 => u.blueHist delta_t n ++ [(u.iter delta_t n).blue_p]

/-- The white satellite's pre-update positions over the first `n` updates,
oldest first. -/
noncomputable def Universe.whiteHist (u : Universe) (delta_t : ℝ) : ℕ → List Vector
  | 0 => []
  | n + 1 => u.whiteHist delta_t n ++ [(u.iter delta_t n).white_p]

-- Small algebraic facts about `Vector`, shared by several claims.

theorem Vector.add_def (v w : Vector) : v + w = ⟨v.x + w.x, v.y + w.y⟩ := rfl

@[simp] theorem Vector.add_x (v w : Vector) : (v + w).x = v.x + w.x := rfl

@[simp] theorem Vector.add_y (v w : Vector) : (v + w).y = v.y + w.y := rfl

@[simp] theorem Vector.sub_x (v w : Vector) : (v - w).x = v.x - w.x := rfl

@[simp] theorem Vector.sub_y (v w : Vector) : (v - w).y = v.y - w.y := rfl

@[simp] theorem Vector.mul_x (v : Vector) (c : ℝ) : (v * c).x = c * v.x := rfl

@[simp] theorem Vector.mul_y (v : Vector) (c : ℝ) : (v * c).y = c * v.y := rfl

@[simp] theorem Vector.rmul_x (v : Vector) (c : ℝ) : (c * v).x = c * v.x := rfl

@[simp] theorem Vector.rmul_y (v : Vector) (c : ℝ) : (c * v).y = c * v.y := rfl

@[simp] theorem Vector.div_x (v : Vector) (d : ℝ) : (v / d).x = v.x / d := rfl

@[simp] theorem Vector.div_y (v : Vector) (d : ℝ) : (v / d).y = v.y / d := rfl

theorem Vector.sub_def (v w : Vector) : v - w = ⟨v.x - w.x, v.y - w.y⟩ := rfl

theorem Vector.mul_def (v : Vector) (c : ℝ) : v * c = ⟨c * v.x, c * v.y⟩ := rfl

theorem Vector.div_def (v : Vector) (d : ℝ) : v / d = ⟨v.x / d, v.y / d⟩ := rfl

theorem Vector.add_assoc' (u v w : Vector) : u + v + w = u + (v + w) := by
  ext <;> simp [Vector.add_def] <;> ring

theorem Vector.add_zero' (v : Vector) : v + (⟨0, 0⟩ : Vector) = v := by
  ext <;> simp [Vector.add_def]

/-- The magnitude of a difference vanishes exactly at coincident points. -/
theorem Vector.abs_sub_eq_zero_iff (v w : Vector) :
    Vector.abs (v - w) = 0 ↔ v = w := by
  rw [Vector.abs, Real.sqrt_eq_zero']
  constructor
  · intro h
    have hx : (v.x - w.x) * (v.x - w.x) ≥ 0 := mul_self_nonneg _
    have hy : (v.y - w.y) * (v.y - w.y) ≥ 0 := mul_self_nonneg _
    have hx0 : (v - w).x * (v - w).x = 0 := by
      have := h
      simp only [Vector.sub_def] at this ⊢
      nlinarith
    have hy0 : (v - w).y * (v - w).y = 0 := by
      simp only [Vector.sub_def] at h ⊢
      nlinarith
    have : v.x - w.x = 0 ∧ v.y - w.y = 0 := by
      constructor
      · exact by simpa [Vector.sub_def] using mul_self_eq_zero.mp hx0
      · exact by simpa [Vector.sub_def] using mul_self_eq_zero.mp hy0
    ext
    · linarith [this.1]
    · linarith [this.2]
  · intro h
    subst h
    simp [Vector.sub_def]

/-- C2: the integration is explicit Euler with position first: for each
moving body the new position is the old position plus the old velocity
times `Δt`, and the new velocity is computed from the force at the new
position (for white, blue's position in the force term is also the
already-updated one). -/
theorem update_euler_order (u : Universe) (delta_t : ℝ) :
    (u.update delta_t).blue_p = u.blue_p + u.blue_v * delta_t ∧
      (u.update delta_t).blue_v =
        u.blue_v - G * u.yellow_m * ((u.update delta_t).blue_p - u.yellow_p)
          / (Vector.abs ((u.update delta_t).blue_p - u.yellow_p) ^ 3) * delta_t ∧
      (u.update delta_t).white_p = u.white_p + u.white_v * delta_t ∧
      (u.update delta_t).white_v =
        u.white_v
          - G * u.yellow_m * ((u.update delta_t).white_p - u.yellow_p)
            / (Vector.abs ((u.update delta_t).white_p - u.yellow_p) ^ 3) * delta_t
          - G * u.blue_m * ((u.update delta_t).white_p - (u.update delta_t).blue_p)
            / (Vector.abs ((u.update delta_t).white_p - (u.update delta_t).blue_p) ^ 3)
            * delta_t :=
  ⟨rfl, rfl, rfl, rfl⟩

/-- C4: `update` writes only the satellites' positions, velocities and
trails: the anchor's position and every body's mass and radius are exactly
as before the call, and the anchor has no velocity to integrate at all. -/
theorem update_preserves_anchor_and_constants (u : Universe) (delta_t : ℝ) :
    (u.update delta_t).yellow_p = u.yellow_p ∧
      (u.update delta_t).yellow_m = u.yellow_m ∧
      (u.update delta_t).yellow_r = u.yellow_r ∧
      (u.update delta_t).blue_m = u.blue_m ∧
      (u.update delta_t).blue_r = u.blue_r ∧
      (u.update delta_t).white_m = u.white_m ∧
      (u.update delta_t).white_r = u.white_r :=
  ⟨rfl, rfl, rfl, rfl, rfl, rfl, rfl⟩

/-- C1 (amended): the blue satellite's velocity update contains a force
term from the anchor only, while the white satellite's contains force
terms from both the anchor and blue; in each term
`d = position_self - position_other` at the already-updated positions. -/
theorem update_velocity_terms (u : Universe) (delta_t : ℝ) :
    (u.update delta_t).blue_v =
      u.blue_v - G * u.yellow_m * ((u.blue_p + u.blue_v * delta_t) - u.yellow_p)
        / (Vector.abs ((u.blue_p + u.blue_v * delta_t) - u.yellow_p) ^ 3) * delta_t ∧
      (u.update delta_t).white_v =
        u.white_v
          - G * u.yellow_m * ((u.white_p + u.white_v * delta_t) - u.yellow_p)
            / (Vector.abs ((u.white_p + u.white_v * delta_t) - u.yellow_p) ^ 3) * delta_t
          - G * u.blue_m
            * ((u.white_p + u.white_v * delta_t) - (u.blue_p + u.blue_v * delta_t))
            / (Vector.abs
                ((u.white_p + u.white_v * delta_t) - (u.blue_p + u.blue_v * delta_t)) ^ 3)
            * delta_t :=
  ⟨rfl, rfl⟩

/-- The blue velocity-update rule as claim C1 states it: net gravitational
acceleration summed over both other bodies, the anchor and white each
contributing `-G * mass_other * d / |d|^3` with `d` taken from blue's new
position.  This definition follows the claim's words, to be compared with
`Universe.update`; it is not what the source computes. -/
noncomputable def blueVelClaimedNet (u : Universe) (delta_t : ℝ) : Vector :=
  let blue_p := u.blue_p + u.blue_v * delta_t
  let dY := blue_p - u.yellow_p
  let dW := blue_p - u.white_p
  u.blue_v - G * u.yellow_m * dY / (Vector.abs dY ^ 3) * delta_t
    - G * u.white_m * dW / (Vector.abs dW ^ 3) * delta_t

/-- A concrete simulator state (both satellite velocities zero, so every
reading of "current position" coincides) separating the implemented blue
velocity update from the all-bodies rule claimed by C1. -/
noncomputable def sepState : Universe :=
  { yellow_r := 50
    yellow_m := 5000000
    yellow_p := ⟨0, 0⟩
    blue_r := 15
    blue_m := 3000
    blue_p := ⟨3, 4⟩
    blue_v := ⟨0, 0⟩
    blue_trail := []
    white_r := 5
    white_m := 100
    white_p := ⟨3, -8⟩
    white_v := ⟨0, 0⟩
    white_trail := [] }

/-- C1 is false on the code: at `sepState` with `Δt = 1`, the blue velocity
produced by `update` (anchor term only) differs from the claimed net rule,
which would also add white's contribution. -/
theorem update_blue_vel_ne_claimed_net :
    (sepState.update 1).blue_v ≠ blueVelClaimedNet sepState 1 := by
  have h25 : Real.sqrt 25 = 5 := by
    rw [show (25 : ℝ) = 5 ^ 2 by norm_num]
    exact Real.sqrt_sq (by norm_num)
  have h144 : Real.sqrt 144 = 12 := by
    rw [show (144 : ℝ) = 12 ^ 2 by norm_num]
    exact Real.sqrt_sq (by norm_num)
  intro h
  have hy := congrArg Vector.y h
  simp only [Universe.update, blueVelClaimedNet, sepState] at hy
  norm_num [Vector.abs, G] at hy
  rw [h25, h144] at hy
  norm_num at hy

/-- The cubed magnitude of a difference vanishes exactly at coincident
points: the divisor `abs(d) ** 3` of a force term is zero iff the two
positions are identical. -/
theorem Vector.absCube_eq_zero_iff (v w : Vector) :
    Vector.abs (v - w) ^ 3 = 0 ↔ v = w := by
  rw [pow_eq_zero_iff (by norm_num : (3 : ℕ) ≠ 0), Vector.abs_sub_eq_zero_iff]

/-- C5: for a running timestep (`Δt ≠ 0`), `update` divides by zero
exactly when two bodies whose pairwise force it computes occupy identical
positions — blue (at its new position) and the anchor, white (at its new
position) and the anchor, or white and blue (both at their new
positions).  Under the precondition that these pairs are all distinct, no
division by zero occurs. -/
theorem update?_none_iff_coincident (u : Universe) (delta_t : ℝ)
    (hdt : delta_t ≠ 0) :
    u.update? delta_t = none ↔
      (u.blue_p + u.blue_v * delta_t = u.yellow_p ∨
        u.white_p + u.white_v * delta_t = u.yellow_p ∨
        u.white_p + u.white_v * delta_t = u.blue_p + u.blue_v * delta_t) := by
  have e1 := Vector.absCube_eq_zero_iff (u.blue_p + u.blue_v * delta_t) u.yellow_p
  have e2 := Vector.absCube_eq_zero_iff (u.white_p + u.white_v * delta_t) u.yellow_p
  have e3 := Vector.absCube_eq_zero_iff (u.white_p + u.white_v * delta_t)
    (u.blue_p + u.blue_v * delta_t)
  simp only [Universe.update?, scalarDiv?, Vector.div?, if_neg hdt,
    Option.some_bind]
  by_cases h1 : u.blue_p + u.blue_v * delta_t = u.yellow_p
  · rw [if_pos (e1.mpr h1)]
    simp [h1]
  · rw [if_neg (fun hc => h1 (e1.mp hc))]
    simp only [Option.some_bind]
    by_cases h2 : u.white_p + u.white_v * delta_t = u.yellow_p
    · rw [if_pos (e2.mpr h2)]
      simp [h2]
    · rw [if_neg (fun hc => h2 (e2.mp hc))]
      simp only [Option.some_bind]
      by_cases h3 : u.white_p + u.white_v * delta_t = u.blue_p + u.blue_v * delta_t
      · rw [if_pos (e3.mpr h3)]
        simp [h3]
      · rw [if_neg (fun hc => h3 (e3.mp hc))]
        simp [h1, h2, h3]

/-- Witness for `update?_none_iff_coincident` at the initial state with
`Δt = 1`. -/
theorem update?_none_iff_coincident_witness :
    (1 : ℝ) ≠ 0 ∧
      (Universe.init.update? 1 = none ↔
        (Universe.init.blue_p + Universe.init.blue_v * (1 : ℝ) = Universe.init.yellow_p ∨
          Universe.init.white_p + Universe.init.white_v * (1 : ℝ) = Universe.init.yellow_p ∨
          Universe.init.white_p + Universe.init.white_v * (1 : ℝ)
            = Universe.init.blue_p + Universe.init.blue_v * (1 : ℝ))) :=
  ⟨by norm_num, update?_none_iff_coincident Universe.init 1 (by norm_num)⟩

/-- The trail-eviction loop pops oldest entries until at most
`⌊bound⌋` remain: it computes `drop (length - ⌊bound⌋)`. -/
theorem trimTrail_eq_drop (bound : ℝ) (hb : 0 ≤ bound) :
    ∀ l : List Vector, trimTrail bound l = l.drop (l.length - ⌊bound⌋₊)
  | [] => by simp [trimTrail]
  | p :: rest => by
    rw [trimTrail]
    by_cases h : bound < ((p :: rest).length : ℝ)
    · rw [if_pos h, trimTrail_eq_drop bound hb rest]
      have hfl : ⌊bound⌋₊ < (p :: rest).length := (Nat.floor_lt hb).mpr h
      have hlen : (p :: rest).length - ⌊bound⌋₊ = (rest.length - ⌊bound⌋₊) + 1 := by
        simp only [List.length_cons] at hfl ⊢
        omega
      rw [hlen]
      rfl
    · rw [if_neg h]
      push_neg at h
      have hle : (p :: rest).length ≤ ⌊bound⌋₊ := Nat.le_floor h
      rw [Nat.sub_eq_zero_of_le hle, List.drop_zero]

theorem blueHist_length (u : Universe) (delta_t : ℝ) :
    ∀ n, (u.blueHist delta_t n).length = n
  | 0 => rfl
  | n + 1 => by
    rw [Universe.blueHist]
    simp [blueHist_length u delta_t n]

theorem whiteHist_length (u : Universe) (delta_t : ℝ) :
    ∀ n, (u.whiteHist delta_t n).length = n
  | 0 => rfl
  | n + 1 => by
    rw [Universe.whiteHist]
    simp [whiteHist_length u delta_t n]

/-- After `n` updates from a state with an empty blue trail, the blue trail
is the last `min n ⌊2/Δt⌋` entries of blue's pre-update position history. -/
theorem iter_blue_trail (u : Universe) (delta_t : ℝ) (hdt : 0 < delta_t)
    (h0 : u.blue_trail = []) :
    ∀ n, (u.iter delta_t n).blue_trail =
      (u.blueHist delta_t n).drop (n - ⌊(2.0 : ℝ) / delta_t⌋₊)
  | 0 => by simpa [Universe.iter, Universe.blueHist] using h0
  | n + 1 => by
    have hb : (0 : ℝ) ≤ 2.0 / delta_t := by positivity
    have ih := iter_blue_trail u delta_t hdt h0 n
    have hlen := blueHist_length u delta_t n
    have hlen1 := blueHist_length u delta_t (n + 1)
    show trimTrail (2.0 / delta_t)
        ((u.iter delta_t n).blue_trail ++ [(u.iter delta_t n).blue_p]) = _
    rw [ih]
    have happ : (u.blueHist delta_t n).drop (n - ⌊(2.0 : ℝ) / delta_t⌋₊)
        ++ [(u.iter delta_t n).blue_p]
        = (u.blueHist delta_t (n + 1)).drop (n - ⌊(2.0 : ℝ) / delta_t⌋₊) := by
      rw [Universe.blueHist,
        List.drop_append_of_le_length (by omega : n - ⌊(2.0 : ℝ) / delta_t⌋₊ ≤ (u.blueHist delta_t n).length)]
    rw [happ, trimTrail_eq_drop (2.0 / delta_t) hb, List.drop_drop]
    congr 1
    rw [List.length_drop, hlen1]
    omega

/-- After `n` updates from a state with an empty white trail, the white
trail is the last `min n ⌊2/Δt⌋` entries of white's position history. -/
theorem iter_white_trail (u : Universe) (delta_t : ℝ) (hdt : 0 < delta_t)
    (h0 : u.white_trail = []) :
    ∀ n, (u.iter delta_t n).white_trail =
      (u.whiteHist delta_t n).drop (n - ⌊(2.0 : ℝ) / delta_t⌋₊)
  | 0 => by simpa [Universe.iter, Universe.whiteHist] using h0
  | n + 1 => by
    have hb : (0 : ℝ) ≤ 2.0 / delta_t := by positivity
    have ih := iter_white_trail u delta_t hdt h0 n
    have hlen := whiteHist_length u delta_t n
    have hlen1 := whiteHist_length u delta_t (n + 1)
    show trimTrail (2.0 / delta_t)
        ((u.iter delta_t n).white_trail ++ [(u.iter delta_t n).white_p]) = _
    rw [ih]
    have happ : (u.whiteHist delta_t n).drop (n - ⌊(2.0 : ℝ) / delta_t⌋₊)
        ++ [(u.iter delta_t n).white_p]
        = (u.whiteHist delta_t (n + 1)).drop (n - ⌊(2.0 : ℝ) / delta_t⌋₊) := by
      rw [Universe.whiteHist,
        List.drop_append_of_le_length (by omega : n - ⌊(2.0 : ℝ) / delta_t⌋₊ ≤ (u.whiteHist delta_t n).length)]
    rw [happ, trimTrail_eq_drop (2.0 / delta_t) hb, List.drop_drop]
    congr 1
    rw [List.length_drop, hlen1]
    omega

/-- C3: after `N > ⌊2/Δt⌋` updates with a fixed `Δt > 0`, each satellite's
trail has length exactly `⌊2/Δt⌋`, and equals the most recent `⌊2/Δt⌋`
pre-update positions of that body, oldest first. -/
theorem trail_bound_after_iter (delta_t : ℝ) (N : ℕ) (hdt : 0 < delta_t)
    (hN : ⌊(2.0 : ℝ) / delta_t⌋₊ < N) :
    ((Universe.init.iter delta_t N).blue_trail.length = ⌊(2.0 : ℝ) / delta_t⌋₊ ∧
        (Universe.init.iter delta_t N).blue_trail =
          (Universe.init.blueHist delta_t N).drop (N - ⌊(2.0 : ℝ) / delta_t⌋₊)) ∧
      ((Universe.init.iter delta_t N).white_trail.length = ⌊(2.0 : ℝ) / delta_t⌋₊ ∧
        (Universe.init.iter delta_t N).white_trail =
          (Universe.init.whiteHist delta_t N).drop (N - ⌊(2.0 : ℝ) / delta_t⌋₊)) := by
  have hbt := iter_blue_trail Universe.init delta_t hdt rfl N
  have hwt := iter_white_trail Universe.init delta_t hdt rfl N
  refine ⟨⟨?_, hbt⟩, ⟨?_, hwt⟩⟩
  · rw [hbt, List.length_drop, blueHist_length]
    omega
  · rw [hwt, List.length_drop, whiteHist_length]
    omega

/-- Witness for `trail_bound_after_iter` at `Δt = 1`, `N = 3`
(`⌊2/1⌋ = 2 < 3`). -/
theorem trail_bound_after_iter_witness :
    (0 : ℝ) < 1 ∧ ⌊(2.0 : ℝ) / 1⌋₊ < 3 ∧
      (((Universe.init.iter 1 3).blue_trail.length = ⌊(2.0 : ℝ) / 1⌋₊ ∧
          (Universe.init.iter 1 3).blue_trail =
            (Universe.init.blueHist 1 3).drop (3 - ⌊(2.0 : ℝ) / 1⌋₊)) ∧
        ((Universe.init.iter 1 3).white_trail.length = ⌊(2.0 : ℝ) / 1⌋₊ ∧
          (Universe.init.iter 1 3).white_trail =
            (Universe.init.whiteHist 1 3).drop (3 - ⌊(2.0 : ℝ) / 1⌋₊))) :=
  ⟨by norm_num, by norm_num,
    trail_bound_after_iter 1 3 (by norm_num) (by norm_num)⟩

theorem iter_radii (u : Universe) (delta_t : ℝ) :
    ∀ n, (u.iter delta_t n).yellow_r = u.yellow_r ∧
      (u.iter delta_t n).blue_r = u.blue_r ∧
      (u.iter delta_t n).white_r = u.white_r
  | 0 => ⟨rfl, rfl, rfl⟩
  | n + 1 => iter_radii u delta_t n

/-- C8: after any number of updates, the scene is exactly three circles in
the fixed order anchor (radius 50), blue satellite (radius 15), white
satellite (radius 5), each at that body's current position. -/
theorem scene_shapes_after_iter (delta_t : ℝ) (n : ℕ) :
    ((Universe.init.iter delta_t n).scene).shapes =
      [Shape.circle ⟨(Universe.init.iter delta_t n).yellow_p, 50⟩,
        Shape.circle ⟨(Universe.init.iter delta_t n).blue_p, 15⟩,
        Shape.circle ⟨(Universe.init.iter delta_t n).white_p, 5⟩] := by
  have hr := iter_radii Universe.init delta_t n
  rw [Universe.scene, hr.1, hr.2.1, hr.2.2]
  rfl

/-- The `y` component of blue's velocity after one update, written out
through the vector operations; holds by unfolding the definitions. -/
theorem update_blue_vy_formula (u : Universe) (dt : ℝ) :
    (u.update dt).blue_v.y
      = u.blue_v.y - dt * (G * u.yellow_m
          * ((u.blue_p.y + dt * u.blue_v.y) - u.yellow_p.y)
          / Real.sqrt
              (((u.blue_p.x + dt * u.blue_v.x) - u.yellow_p.x)
                  * ((u.blue_p.x + dt * u.blue_v.x) - u.yellow_p.x)
                + ((u.blue_p.y + dt * u.blue_v.y) - u.yellow_p.y)
                  * ((u.blue_p.y + dt * u.blue_v.y) - u.yellow_p.y)) ^ 3) := rfl

theorem update_blue_px_formula (u : Universe) (dt : ℝ) :
    (u.update dt).blue_p.x = u.blue_p.x + dt * u.blue_v.x := rfl

theorem update_blue_py_formula (u : Universe) (dt : ℝ) :
    (u.update dt).blue_p.y = u.blue_p.y + dt * u.blue_v.y := rfl

/-- Blue starts at distance 200 from the anchor, so its initial speed is
`sqrt(G * 5000000 / 200) = sqrt 25000`. -/
theorem init_blue_vy : Universe.init.blue_v.y = -Real.sqrt 25000 := by
  show -Real.sqrt (G * 5000000 / Vector.abs ((⟨200, 0⟩ : Vector) - ⟨0, 0⟩))
    = -Real.sqrt 25000
  have habs : Vector.abs ((⟨200, 0⟩ : Vector) - ⟨0, 0⟩) = 200 := by
    rw [Vector.abs]
    norm_num
    rw [show (40000 : ℝ) = 200 ^ 2 by norm_num]
    exact Real.sqrt_sq (by norm_num)
  rw [habs]
  norm_num [G]

theorem sqrt25000_bounds :
    (158.112 : ℝ) < Real.sqrt 25000 ∧ Real.sqrt 25000 < 158.116 :=
  ⟨(Real.lt_sqrt (by norm_num)).mpr (by norm_num),
    (Real.sqrt_lt' (by norm_num)).mpr (by norm_num)⟩

theorem init_step_blue_px : (Universe.init.update 0.05).blue_p.x = 200 := by
  rw [update_blue_px_formula]
  show (200 : ℝ) + 0.05 * 0 = 200
  norm_num

theorem init_step_blue_py :
    (Universe.init.update 0.05).blue_p.y = -(0.05 * Real.sqrt 25000) := by
  rw [update_blue_py_formula, init_blue_vy]
  show (0 : ℝ) + 0.05 * -Real.sqrt 25000 = -(0.05 * Real.sqrt 25000)
  ring

/-- After one step of `0.05`, blue's vertical speed has gained the exact
increment `12500 * sqrt 25000 / sqrt 40062.5 ^ 3` (the anchor's pull at
blue's new position, times `Δt`). -/
theorem init_step_blue_vy :
    (Universe.init.update 0.05).blue_v.y
      = -Real.sqrt 25000 + 12500 * Real.sqrt 25000 / Real.sqrt 40062.5 ^ 3 := by
  have hsq : Real.sqrt 25000 * Real.sqrt 25000 = 25000 :=
    Real.mul_self_sqrt (by norm_num)
  rw [update_blue_vy_formula, init_blue_vy]
  show -Real.sqrt 25000 - 0.05 * (G * 5000000
      * ((0 + 0.05 * -Real.sqrt 25000) - 0)
      / Real.sqrt
          (((200 + 0.05 * 0) - 0) * ((200 + 0.05 * 0) - 0)
            + ((0 + 0.05 * -Real.sqrt 25000) - 0)
              * ((0 + 0.05 * -Real.sqrt 25000) - 0)) ^ 3)
    = -Real.sqrt 25000 + 12500 * Real.sqrt 25000 / Real.sqrt 40062.5 ^ 3
  rw [show (((200 + 0.05 * 0 : ℝ) - 0) * ((200 + 0.05 * 0) - 0)
      + ((0 + 0.05 * -Real.sqrt 25000) - 0) * ((0 + 0.05 * -Real.sqrt 25000) - 0))
      = 40062.5 from by linear_combination (0.0025 : ℝ) * hsq]
  simp only [G]
  ring

/-- The velocity increment of `init_step_blue_vy` is strictly positive and
below `1/4`. -/
theorem init_step_increment_bounds :
    0 < 12500 * Real.sqrt 25000 / Real.sqrt 40062.5 ^ 3 ∧
      12500 * Real.sqrt 25000 / Real.sqrt 40062.5 ^ 3 < 1 / 4 := by
  have hs := sqrt25000_bounds
  have hspos : 0 < Real.sqrt 25000 := Real.sqrt_pos.mpr (by norm_num)
  have hr200 : (200 : ℝ) < Real.sqrt 40062.5 :=
    (Real.lt_sqrt (by norm_num)).mpr (by norm_num)
  have hrpos : (0 : ℝ) < Real.sqrt 40062.5 := by linarith
  have hA : (8000000 : ℝ) < Real.sqrt 40062.5 ^ 3 := by
    have h8 : (200 : ℝ) ^ 3 < Real.sqrt 40062.5 ^ 3 :=
      pow_lt_pow_left₀ hr200 (by norm_num) (by norm_num)
    have h83 : (200 : ℝ) ^ 3 = 8000000 := by norm_num
    linarith
  have hApos : 0 < Real.sqrt 40062.5 ^ 3 := by positivity
  refine ⟨by positivity, ?_⟩
  rw [div_lt_iff₀ hApos]
  nlinarith [hs.2, hspos, hA]

/-- C6 is false on the code in its last conjunct: after one `update(0.05)`
from the initial state, blue's new vertical velocity is not more negative
than the initial one — the anchor's pull at blue's new position (below the
x-axis) points back towards `y = 0`. -/
theorem update_blue_vy_not_more_negative :
    ¬ (Universe.init.update 0.05).blue_v.y < Universe.init.blue_v.y := by
  rw [init_step_blue_vy, init_blue_vy]
  have hinc := init_step_increment_bounds
  linarith [hinc.1]

/-- C6 (amended): blue starts at `(200, 0)` with velocity
`(0, -sqrt(5000000/200)) ≈ (0, -158.11)`, purely in `-y`; after one
`update(0.05)` its position is `(200, ≈ -7.9057)` and its new vertical
velocity is slightly *less* negative than the initial one (greater, by a
positive increment below `1/4`). -/
theorem init_scenario_step :
    Universe.init.blue_v.x = 0 ∧
      Universe.init.blue_v.y = -Real.sqrt (5000000 / 200) ∧
      (-158.12 : ℝ) < Universe.init.blue_v.y ∧
      Universe.init.blue_v.y < -158.11 ∧
      (Universe.init.update 0.05).blue_p.x = 200 ∧
      (-7.9058 : ℝ) < (Universe.init.update 0.05).blue_p.y ∧
      (Universe.init.update 0.05).blue_p.y < -7.9056 ∧
      Universe.init.blue_v.y < (Universe.init.update 0.05).blue_v.y ∧
      (Universe.init.update 0.05).blue_v.y < Universe.init.blue_v.y + 1 / 4 := by
  have hb := sqrt25000_bounds
  have hinc := init_step_increment_bounds
  refine ⟨rfl, ?_, ?_, ?_, init_step_blue_px, ?_, ?_, ?_, ?_⟩
  · rw [init_blue_vy]
    norm_num
  · rw [init_blue_vy]
    linarith [hb.2]
  · rw [init_blue_vy]
    linarith [hb.1]
  · rw [init_step_blue_py]
    linarith [hb.2]
  · rw [init_step_blue_py]
    linarith [hb.1]
  · rw [init_step_blue_vy, init_blue_vy]
    linarith [hinc.1]
  · rw [init_step_blue_vy, init_blue_vy]
    linarith [hinc.2]

/-- C7: the bounding box of a circle is its center shifted by `±r` in each
axis, and for a nonnegative radius the box is well ordered. -/
theorem circle_bbox_eq (c : Circle) :
    c.bbox = BBox.mk ⟨c.o.x - c.r, c.o.y - c.r⟩ ⟨c.o.x + c.r, c.o.y + c.r⟩ ∧
      (0 ≤ c.r → c.bbox.min.x ≤ c.bbox.max.x ∧ c.bbox.min.y ≤ c.bbox.max.y) := by
  refine ⟨rfl, fun h => ?_⟩
  constructor <;> (simp only [Circle.bbox]; linarith)

/-- Witness for `circle_bbox_eq` at the concrete circle of radius 3
centred at (1, 2). -/
theorem circle_bbox_eq_witness :
    (0 : ℝ) ≤ 3 ∧
      ((Circle.mk ⟨1, 2⟩ 3).bbox.min.x ≤ (Circle.mk ⟨1, 2⟩ 3).bbox.max.x ∧
        (Circle.mk ⟨1, 2⟩ 3).bbox.min.y ≤ (Circle.mk ⟨1, 2⟩ 3).bbox.max.y) :=
  ⟨by norm_num, (circle_bbox_eq (Circle.mk ⟨1, 2⟩ 3)).2 (by norm_num)⟩

/-- C9: translation is a group action on circles and curves: composing two
translations equals translating by the sum, the zero vector acts as the
identity, and a translation shifts every point-like field while leaving a
circle's radius unchanged. -/
theorem shape_translation_group_action (c : Circle) (q : Curve) (d1 d2 : Vector) :
    (c + d1) + d2 = c + (d1 + d2) ∧ c + (⟨0, 0⟩ : Vector) = c ∧
      (q + d1) + d2 = q + (d1 + d2) ∧ q + (⟨0, 0⟩ : Vector) = q ∧
      (c + d1).o = c.o + d1 ∧ (c + d1).r = c.r ∧
      (q + d1).points = q.points.map (· + d1) := by
  refine ⟨?_, ?_, ?_, ?_, rfl, rfl, rfl⟩
  · ext : 1
    · exact Vector.add_assoc' c.o d1 d2
    · rfl
  · ext : 1
    · exact Vector.add_zero' c.o
    · rfl
  · show Curve.mk (((q.points.map (· + d1)).map (· + d2))) = _
    ext : 1
    simp only [List.map_map, Curve.addVec]
    refine List.map_congr_left fun p _ => ?_
    exact Vector.add_assoc' p d1 d2
  · show Curve.mk (q.points.map (· + (⟨0, 0⟩ : Vector))) = q
    ext : 1
    simp only [Curve.addVec]
    have : q.points.map (· + (⟨0, 0⟩ : Vector)) = q.points.map id := by
      refine List.map_congr_left fun p _ => ?_
      exact Vector.add_zero' p
    simp [this]

/-- C10: taking the bounding box commutes with translation: translating a
circle and then taking its bounding box equals translating the original
bounding box. -/
theorem circle_bbox_translate_comm (c : Circle) (d : Vector) :
    (c + d).bbox = c.bbox + d := by
  show (Circle.mk (c.o + d) c.r).bbox = BBox.addVec c.bbox d
  ext <;> simp [Circle.bbox, BBox.addVec] <;> ring

end Orbits
